import Mathlib

/-!
Shallow embedding of the NTFS volume probe `volume_id_probe_ntfs` from
`extras/volume_id/lib/ntfs.c` (udev-114), together with theorems checking
the natural-language specification against it.

Byte buffers returned by the Buffer Source (`volume_id_get_buffer`) are
modelled as `List Nat` (each element one byte).  Reading a byte that lies
outside the buffer that was fetched is undefined behaviour in the C code
(the pointer-cast overlays perform no bounds checks); every read in the
model therefore goes through `readByte`/`readBytes`, which return `none`
exactly when the C code would dereference out of bounds.  A probe run that
performs such a read is modelled as the result `none` (undefined), while
defined runs produce `some (result, returnCode)`.
-/

namespace NtfsProbe

/-- Read one byte of a fetched buffer; `none` models an out-of-bounds
dereference (undefined behaviour in the C source). -/
def readByte (buf : List Nat) (i : Nat) : Option Nat :=
  buf[i]?

/-- Read `n` consecutive bytes starting at index `i`; `none` if any byte is
out of bounds. -/
def readBytes : List Nat → Nat → Nat → Option (List Nat)
  | _, _, 0 => some []
  | buf, i, n + 1 =>
    match readByte buf i, readBytes buf (i + 1) n with
    | some b, some bs => some (b :: bs)
    | _, _ => none

/-- Little-endian value of a byte list (first byte least significant). -/
def leVal : List Nat → Nat
  | [] => 0
  | b :: bs => b + 256 * leVal bs

/-- Read an `n`-byte little-endian unsigned integer at index `i`
(the `le16_to_cpu`/`le32_to_cpu`/`le64_to_cpu` accesses of the source). -/
def readLE (buf : List Nat) (i n : Nat) : Option Nat :=
  (readBytes buf i n).map leVal

/-- The Identity Result (`struct volume_id`), restricted to the fields the
NTFS probe touches.  All fields start absent.  `uuid` holds the 64-bit
little-endian value of the 8 serial bytes (`volume_id_set_uuid` with
`UUID_64BIT_LE`; modelled from the spec, `util.c` is not in the sources);
`label_raw` the raw label bytes; `label` the label decoded as 16-bit
little-endian code units; `type_version` the `(major, minor)` pair that
`snprintf "%u.%u"` formats. -/
structure VolumeId where
  uuid : Option Nat := none
  label_raw : Option (List Nat) := none
  label : Option (List Nat) := none
  type_version : Option (Nat × Nat) := none
  usage : Option String := none
  type : Option String := none
deriving DecidableEq, Repr

/-- Freshly initialised Identity Result of the caller. -/
def emptyVolumeId : VolumeId := {}

/-- Modelled from the spec: `volume_id_set_label_unicode16(.., LE, len)`
(not in the sources) decodes consecutive byte pairs as little-endian
16-bit code units; a trailing odd byte is ignored. -/
def decodeUnicode16LE : List Nat → List Nat
  | b0 :: b1 :: rest => (b0 + 256 * b1) :: decodeUnicode16LE rest
  | _ => []

/-- Modelled from the spec: the fixed maximum label size of the Identity Result
(`VOLUME_ID_LABEL_SIZE` of `libvolume_id.h`, which is not in the sources). -/
def VOLUME_ID_LABEL_SIZE : Nat := 64

/-- Attribute type tag for the volume-name attribute (`0x60`). -/
def MFT_RECORD_ATTR_VOLUME_NAME : Nat := 0x60

/-- Attribute type tag for the volume-information attribute (`0x70`). -/
def MFT_RECORD_ATTR_VOLUME_INFO : Nat := 0x70

/-- End-of-attribute-list marker (`0xffffffff`). -/
def MFT_RECORD_ATTR_END : Nat := 0xffffffff

/-- Index of the `$Volume` metadata record (`MFT_RECORD_VOLUME`). -/
def MFT_RECORD_VOLUME : Nat := 3

/-- The `mft_record_size` computation of the source:
`if (ns->cluster_per_mft_record < 0) mft_record_size = 1 << -ns->cluster_per_mft_record;
else mft_record_size = ns->cluster_per_mft_record * cluster_size;`.
`sizeByte` is the raw byte (`0..255`); values `128..255` are the negative
twos-complement values `-128..-1`, of magnitude `256 - sizeByte`.
For a negative value the C code shifts an `int`-typed `1` left by the
magnitude; a shift count of `32` or more is at least the width of `int`
and therefore undefined behaviour (C99 6.5.7), modelled as `none`.
In the non-negative branch `byte * cluster_size ≤ 127 * 255 * 65535`
fits `unsigned int`, so plain `Nat` multiplication is exact. -/
def mftRecordSize (sizeByte clusterSize : Nat) : Option Nat :=
  if 128 ≤ sizeByte then
    if 256 - sizeByte < 32 then some (2 ^ (256 - sizeByte)) else none
  else
    some (sizeByte * clusterSize)

/-- Read the four attribute-header fields the loop body reads before any
check: `type` (32-bit LE at offset 0), `len` (the low 16 bits of the
32-bit field at offset 4 — the source applies `le16_to_cpu`, and the spec
describes the field as a 16-bit total length), `value_offset` (16-bit LE
at offset 20) and `value_len` (32-bit LE at offset 16), all relative to
the attribute start `attrOff` inside the record buffer.  Any byte outside
the record buffer makes the access undefined (`none`). -/
def readAttrHeader (buf : List Nat) (attrOff : Nat) :
    Option (Nat × Nat × Nat × Nat) :=
  match readLE buf attrOff 4, readLE buf (attrOff + 4) 2,
        readLE buf (attrOff + 20) 2, readLE buf (attrOff + 16) 4 with
  | some t, some l, some vo, some vl => some (t, l, vo, vl)
  | _, _, _, _ => none

/-- Value-payload processing of one attribute (the two `if` blocks of the
loop body).  For `MFT_RECORD_ATTR_VOLUME_INFO` the bytes at
`attrOff + value_offset + 8/9` (`major_ver`/`minor_ver` of
`struct volume_info`) are read; for `MFT_RECORD_ATTR_VOLUME_NAME` the
`value_len` is first clamped to `VOLUME_ID_LABEL_SIZE` and the clamped
number of bytes at `attrOff + value_offset` is copied raw into
`label_raw` and decoded as 16-bit little-endian code units into `label`.
`none` models an out-of-bounds read (the source performs none of these
reads through a bounds check). -/
def processAttr (buf : List Nat) (attrOff t vo vl : Nat) (id : VolumeId) :
    Option VolumeId :=
  if t = MFT_RECORD_ATTR_VOLUME_INFO then
    match readByte buf (attrOff + vo + 8), readByte buf (attrOff + vo + 9) with
    | some maj, some mnr => some { id with type_version := some (maj, mnr) }
    | _, _ => none
  else if t = MFT_RECORD_ATTR_VOLUME_NAME then
    (readBytes buf (attrOff + vo) (min vl VOLUME_ID_LABEL_SIZE)).map
      (fun bytes =>
        { id with label_raw := some bytes,
                  label := some (decodeUnicode16LE bytes) })
  else some id

/-- Outcome of the attribute walk: a normal loop exit carrying the
accumulated Identity Result, an undefined out-of-bounds read, or fuel
exhaustion (`gas` never occurs with fuel `record_size + 1`, see
`walkAttrs_no_gas`). -/
inductive WalkOut where
  | ok (id : VolumeId)
  | oob
  | gas
deriving DecidableEq, Repr

/-- One iteration of the `while (1)` loop: read the attribute header at
`attrOff`, advance `attr_off += attr_len`, then check — in this order —
`attr_len == 0`, `attr_off >= mft_record_size`,
`attr_type == MFT_RECORD_ATTR_END`, each of which breaks out of the loop
normally; otherwise process the value payload of the attribute and continue at
the advanced offset. -/
def walkStep (buf : List Nat) (recSize attrOff : Nat) (id : VolumeId) :
    WalkOut ⊕ (Nat × VolumeId) :=
  match readAttrHeader buf attrOff with
  | none => Sum.inl WalkOut.oob
  | some (t, l, vo, vl) =>
    if l = 0 then Sum.inl (WalkOut.ok id)
    else if recSize ≤ attrOff + l then Sum.inl (WalkOut.ok id)
    else if t = MFT_RECORD_ATTR_END then Sum.inl (WalkOut.ok id)
    else
      match processAttr buf attrOff t vo vl id with
      | none => Sum.inl WalkOut.oob
      | some id2 => Sum.inr (attrOff + l, id2)

/-- The attribute chain walk (the `while (1)` loop), with explicit fuel;
`walkAttrs_no_gas` shows fuel `record_size + 1` never runs out,
so the fuelled function agrees with the unbounded C loop. -/
def walkAttrs : Nat → List Nat → Nat → Nat → VolumeId → WalkOut
  | 0, _, _, _, _ => WalkOut.gas
  | fuel + 1, buf, recSize, attrOff, id =>
    match walkStep buf recSize attrOff id with
    | Sum.inl out => out
    | Sum.inr (nextOff, id2) => walkAttrs fuel buf recSize nextOff id2

/-- The `found:` epilogue: `volume_id_set_usage(id, VOLUME_ID_FILESYSTEM)`
and `id->type = "ntfs"`. -/
def markFound (id : VolumeId) : VolumeId :=
  { id with usage := some "filesystem", type := some "ntfs" }

/-- Geometry computed from the boot sector and the resulting metadata
record request `(address, length)` passed to the second
`volume_id_get_buffer` call:
`sector_size = le16(ns+11)`, `cluster_size = ns[13] * sector_size`,
`mft_cluster = le64(ns+48)`, `mft_off = mft_cluster * cluster_size`
(`uint64_t`, reduced mod `2^64`), `mft_record_size` from the signed byte
`ns[64]`, address `off + mft_off + 3 * mft_record_size` where
`3 * mft_record_size` is `int * unsigned int` arithmetic (mod `2^32`) and
the final sum is `uint64_t` arithmetic (mod `2^64`). -/
def recordRequest (off : Nat) (ns : List Nat) : Option (Nat × Nat) :=
  match readLE ns 11 2, readByte ns 13, readLE ns 48 8, readByte ns 64 with
  | some sectorSize, some spc, some mftCluster, some sizeByte =>
    let clusterSize := spc * sectorSize
    let mftOff := (mftCluster * clusterSize) % 2 ^ 64
    (mftRecordSize sizeByte clusterSize).map
      (fun recSize =>
        (((off + mftOff + (MFT_RECORD_VOLUME * recSize) % 2 ^ 32) % 2 ^ 64),
         recSize))
  | _, _, _, _ => none

/-- The probe `volume_id_probe_ntfs(id, off, size)`.  `fetch` is the
Buffer Source (`volume_id_get_buffer`), mapping `(offset, length)` to the
fetched bytes or `none` when unavailable.  The result is `none` when the
run is undefined (an out-of-bounds read), otherwise
`some (result, code)` with `code = 0` a match and `code = -1` no match.
Steps, exactly as in the source: fetch 0x200 boot-sector bytes at `off`
(`NULL` → return `-1`); compare the 4 bytes at the `oem_id` field (offset
3) with `"NTFS"` (mismatch → return `-1`); set `uuid` from the 8
`volume_serial` bytes at offset 72; compute the geometry and fetch the
`$Volume` metadata record (unavailable → `found:`); compare its 4 magic
bytes with `"FILE"` (mismatch → `found:`); read `attrs_offset` (16-bit LE
at offset 20) and walk the attribute chain; at `found:` set usage and
type and return 0. -/
def volume_id_probe_ntfs (fetch : Nat → Nat → Option (List Nat))
    (off : Nat) (id : VolumeId) : Option (VolumeId × Int) :=
  match fetch off 0x200 with
  | none => some (id, -1)
  | some ns =>
    match readBytes ns 3 4 with
    | none => none
    | some sig =>
      if sig = [0x4e, 0x54, 0x46, 0x53] then
        match readBytes ns 72 8 with
        | none => none
        | some serial =>
          let id1 := { id with uuid := some (leVal serial) }
          match recordRequest off ns with
          | none => none
          | some (addr, recSize) =>
            match fetch addr recSize with
            | none => some (markFound id1, 0)
            | some buf =>
              match readBytes buf 0 4 with
              | none => none
              | some magic =>
                if magic = [0x46, 0x49, 0x4c, 0x45] then
                  match readLE buf 20 2 with
                  | none => none
                  | some attrsOff =>
                    match walkAttrs (recSize + 1) buf recSize attrsOff id1 with
                    | WalkOut.ok id2 => some (markFound id2, 0)
                    | _ => none
                else some (markFound id1, 0)
      else some (id, -1)

/-! Concrete input data used by counterexamples and witnesses. -/

/-- A 32-byte metadata record whose single Volume-Name attribute
(`type = 0x60`, `total_length = 24`, `value_offset = 28`,
`value_length = 8`) places its value bytes at `[28, 36)`, which runs 4
bytes past the 32-byte record. -/
def c1RecordBuf : List Nat :=
  [0x60, 0, 0, 0, 24, 0, 0, 0, 0, 0, 0, 0, 0, 0, 0, 0,
   8, 0, 0, 0, 28, 0, 0, 0, 0, 0, 0, 0, 0, 0, 0, 0]

/-- A well-formed 512-byte boot sector: oem field `"NTFS    "`,
`bytes_per_sector = 512`, `sectors_per_cluster = 8`,
`mft_cluster_location = 0`, record-size byte `255` (twos-complement
`-1`, so `mft_record_size = 2`), serial bytes `1..8`. -/
def ntfsBootA : List Nat :=
  [0, 0, 0] ++ [0x4e, 0x54, 0x46, 0x53, 32, 32, 32, 32] ++ [0, 2] ++ [8] ++
  List.replicate 34 0 ++ List.replicate 8 0 ++ List.replicate 8 0 ++ [255] ++
  List.replicate 7 0 ++ [1, 2, 3, 4, 5, 6, 7, 8] ++ List.replicate 432 0

/-- Like `ntfsBootA` but with record-size byte `0x80` (twos-complement
`-128`), making the record-size shift `1 << 128` undefined. -/
def ntfsBootB : List Nat :=
  [0, 0, 0] ++ [0x4e, 0x54, 0x46, 0x53, 32, 32, 32, 32] ++ [0, 2] ++ [8] ++
  List.replicate 34 0 ++ List.replicate 8 0 ++ List.replicate 8 0 ++ [0x80] ++
  List.replicate 7 0 ++ [1, 2, 3, 4, 5, 6, 7, 8] ++ List.replicate 432 0

/-- Like `ntfsBootA` but with `bytes_per_sector = 0` and record-size byte
`4`, so `sector_size = 0`, `cluster_size = 0` and `mft_record_size = 0`. -/
def ntfsBootC : List Nat :=
  [0, 0, 0] ++ [0x4e, 0x54, 0x46, 0x53, 32, 32, 32, 32] ++ [0, 0] ++ [8] ++
  List.replicate 34 0 ++ List.replicate 8 0 ++ List.replicate 8 0 ++ [4] ++
  List.replicate 7 0 ++ [1, 2, 3, 4, 5, 6, 7, 8] ++ List.replicate 432 0

/-- Buffer Source serving `ntfsBootA` as the boot sector and reporting
everything else unavailable. -/
def fetchA : Nat → Nat → Option (List Nat) :=
  fun o n => if o = 0 ∧ n = 512 then some ntfsBootA else none

/-- Buffer Source agreeing with `fetchA` on the two requests the probe
makes for `ntfsBootA` (the boot sector and the metadata record) but
differing on an unrelated request. -/
def fetchA2 : Nat → Nat → Option (List Nat) :=
  fun o n =>
    if o = 0 ∧ n = 512 then some ntfsBootA
    else if o = 9 ∧ n = 9 then some [7, 7, 7, 7, 7, 7, 7, 7, 7] else none

/-- Buffer Source serving `ntfsBootB` as the boot sector. -/
def fetchB : Nat → Nat → Option (List Nat) :=
  fun o n => if o = 0 ∧ n = 512 then some ntfsBootB else none

/-- Buffer Source serving `ntfsBootC` as the boot sector. -/
def fetchC : Nat → Nat → Option (List Nat) :=
  fun o n => if o = 0 ∧ n = 512 then some ntfsBootC else none

/-- A 120-byte metadata record holding one Volume-Name attribute at
offset 0 with `total_length = 96`, `value_offset = 24` and
`value_length = 100 > VOLUME_ID_LABEL_SIZE`; bytes from offset 24 on are
all `65`. -/
def c8RecordBuf : List Nat :=
  [0x60, 0, 0, 0, 96, 0, 0, 0, 0, 0, 0, 0, 0, 0, 0, 0,
   100, 0, 0, 0, 24, 0, 0, 0] ++ List.replicate 96 65

/-! Helper lemmas about the byte readers and the attribute walk. -/

theorem readBytes_length :
    ∀ (n : Nat) (buf : List Nat) (i : Nat) (bs : List Nat),
      readBytes buf i n = some bs → bs.length = n := by
  intro n
  induction n with
  | zero =>
    intro buf i bs h
    simp [readBytes] at h
    simp [← h]
  | succ m ih =>
    intro buf i bs h
    simp only [readBytes] at h
    cases hb : readByte buf i with
    | none => rw [hb] at h; exact absurd h (by simp)
    | some b =>
      rw [hb] at h
      cases hr : readBytes buf (i + 1) m with
      | none => rw [hr] at h; exact absurd h (by simp)
      | some bs2 =>
        rw [hr] at h
        simp at h
        rw [← h]
        simp [ih buf (i + 1) bs2 hr]

/-- Every `Sum.inl` result of `walkStep` is `oob` or `ok` with the
unchanged Identity Result. -/
theorem walkStep_inl_cases {buf : List Nat} {recSize attrOff : Nat}
    {id : VolumeId} {out : WalkOut}
    (h : walkStep buf recSize attrOff id = Sum.inl out) :
    out = WalkOut.oob ∨ out = WalkOut.ok id := by
  unfold walkStep at h
  cases hh : readAttrHeader buf attrOff with
  | none => rw [hh] at h; simp at h; exact Or.inl h.symm
  | some tup =>
    obtain ⟨t, l, vo, vl⟩ := tup
    simp only [hh] at h
    by_cases h0 : l = 0
    · rw [if_pos h0] at h; simp at h; exact Or.inr h.symm
    · rw [if_neg h0] at h
      by_cases h1 : recSize ≤ attrOff + l
      · rw [if_pos h1] at h; simp at h; exact Or.inr h.symm
      · rw [if_neg h1] at h
        by_cases h2 : t = MFT_RECORD_ATTR_END
        · rw [if_pos h2] at h; simp at h; exact Or.inr h.symm
        · rw [if_neg h2] at h
          cases hp : processAttr buf attrOff t vo vl id with
          | none => rw [hp] at h; simp at h; exact Or.inl h.symm
          | some id2 => rw [hp] at h; simp at h

/-- A continuing `walkStep` strictly advances the offset and stays below
the record size. -/
theorem walkStep_inr_bounds {buf : List Nat} {recSize attrOff : Nat}
    {id : VolumeId} {nextOff : Nat} {id2 : VolumeId}
    (h : walkStep buf recSize attrOff id = Sum.inr (nextOff, id2)) :
    attrOff < nextOff ∧ nextOff < recSize := by
  unfold walkStep at h
  cases hh : readAttrHeader buf attrOff with
  | none => rw [hh] at h; simp at h
  | some tup =>
    obtain ⟨t, l, vo, vl⟩ := tup
    simp only [hh] at h
    by_cases h0 : l = 0
    · rw [if_pos h0] at h; simp at h
    · rw [if_neg h0] at h
      by_cases h1 : recSize ≤ attrOff + l
      · rw [if_pos h1] at h; simp at h
      · rw [if_neg h1] at h
        by_cases h2 : t = MFT_RECORD_ATTR_END
        · rw [if_pos h2] at h; simp at h
        · rw [if_neg h2] at h
          cases hp : processAttr buf attrOff t vo vl id with
          | none => rw [hp] at h; simp at h
          | some idp =>
            rw [hp] at h
            simp at h
            omega

/-- `processAttr` never touches the `uuid` field. -/
theorem processAttr_uuid {buf : List Nat} {attrOff t vo vl : Nat}
    {id id2 : VolumeId}
    (h : processAttr buf attrOff t vo vl id = some id2) :
    id2.uuid = id.uuid := by
  unfold processAttr at h
  by_cases h0 : t = MFT_RECORD_ATTR_VOLUME_INFO
  · rw [if_pos h0] at h
    cases ha : readByte buf (attrOff + vo + 8) with
    | none => rw [ha] at h; simp at h
    | some maj =>
      rw [ha] at h
      cases hb : readByte buf (attrOff + vo + 9) with
      | none => rw [hb] at h; simp at h
      | some mnr => rw [hb] at h; simp at h; rw [← h]
  · rw [if_neg h0] at h
    by_cases h1 : t = MFT_RECORD_ATTR_VOLUME_NAME
    · rw [if_pos h1] at h
      cases hb : readBytes buf (attrOff + vo) (min vl VOLUME_ID_LABEL_SIZE) with
      | none => rw [hb] at h; simp at h
      | some bytes => rw [hb] at h; simp at h; rw [← h]
    · rw [if_neg h1] at h; simp at h; rw [← h]

/-- A continuing `walkStep` never touches the `uuid` field. -/
theorem walkStep_inr_uuid {buf : List Nat} {recSize attrOff : Nat}
    {id : VolumeId} {nextOff : Nat} {id2 : VolumeId}
    (h : walkStep buf recSize attrOff id = Sum.inr (nextOff, id2)) :
    id2.uuid = id.uuid := by
  unfold walkStep at h
  cases hh : readAttrHeader buf attrOff with
  | none => rw [hh] at h; simp at h
  | some tup =>
    obtain ⟨t, l, vo, vl⟩ := tup
    simp only [hh] at h
    by_cases h0 : l = 0
    · rw [if_pos h0] at h; simp at h
    · rw [if_neg h0] at h
      by_cases h1 : recSize ≤ attrOff + l
      · rw [if_pos h1] at h; simp at h
      · rw [if_neg h1] at h
        by_cases h2 : t = MFT_RECORD_ATTR_END
        · rw [if_pos h2] at h; simp at h
        · rw [if_neg h2] at h
          cases hp : processAttr buf attrOff t vo vl id with
          | none => rw [hp] at h; simp at h
          | some idp =>
            rw [hp] at h
            simp at h
            rw [← h.2]
            exact processAttr_uuid hp

/-- With more fuel than `recSize - attrOff` the walk cannot exhaust its
fuel: each continuing step strictly increases the offset while keeping it
below `recSize`. -/
theorem walkAttrs_no_gas :
    ∀ (fuel : Nat) (buf : List Nat) (recSize attrOff : Nat) (id : VolumeId),
      recSize - attrOff < fuel →
      walkAttrs fuel buf recSize attrOff id ≠ WalkOut.gas := by
  intro fuel
  induction fuel with
  | zero => intro buf recSize attrOff id h; omega
  | succ n ih =>
    intro buf recSize attrOff id h
    simp only [walkAttrs]
    cases hs : walkStep buf recSize attrOff id with
    | inl out =>
      rcases walkStep_inl_cases hs with h1 | h1 <;> simp [h1]
    | inr p =>
      obtain ⟨nextOff, id2⟩ := p
      have hb := walkStep_inr_bounds hs
      exact ih buf recSize nextOff id2 (by omega)

/-- A walk that exits normally never touches the `uuid` field. -/
theorem walkAttrs_ok_uuid :
    ∀ (fuel : Nat) (buf : List Nat) (recSize attrOff : Nat)
      (id id2 : VolumeId),
      walkAttrs fuel buf recSize attrOff id = WalkOut.ok id2 →
      id2.uuid = id.uuid := by
  intro fuel
  induction fuel with
  | zero => intro buf recSize attrOff id id2 h; simp [walkAttrs] at h
  | succ n ih =>
    intro buf recSize attrOff id id2 h
    simp only [walkAttrs] at h
    cases hs : walkStep buf recSize attrOff id with
    | inl out =>
      rw [hs] at h
      simp at h
      rcases walkStep_inl_cases hs with h1 | h1
      · rw [h1] at h; exact absurd h (by simp)
      · rw [h1] at h
        simp at h
        rw [← h]
    | inr p =>
      obtain ⟨nextOff, idm⟩ := p
      rw [hs] at h
      simp at h
      rw [ih buf recSize nextOff idm id2 h]
      exact walkStep_inr_uuid hs

/-- When the attribute header at the current offset is readable and one of
the three break conditions holds, the step exits the loop normally with
the Identity Result unchanged. -/
theorem walkStep_break {buf : List Nat} {recSize attrOff : Nat}
    {id : VolumeId} {t l vo vl : Nat}
    (hh : readAttrHeader buf attrOff = some (t, l, vo, vl))
    (hterm : l = 0 ∨ recSize ≤ attrOff + l ∨ t = MFT_RECORD_ATTR_END) :
    walkStep buf recSize attrOff id = Sum.inl (WalkOut.ok id) := by
  unfold walkStep
  simp only [hh]
  by_cases h0 : l = 0
  · rw [if_pos h0]
  · rw [if_neg h0]
    by_cases h1 : recSize ≤ attrOff + l
    · rw [if_pos h1]
    · rw [if_neg h1]
      have h2 : t = MFT_RECORD_ATTR_END := by tauto
      rw [if_pos h2]

/-! Claim theorems. -/

/-- C1: the spec claims every byte access used to read the
value payload of an attribute lies within the `record_size` bytes fetched for the record,
and that a `value_offset`/`value_length` pair reaching past the record is
skipped without being read.  The code performs no such validation: on the
32-byte record `c1RecordBuf`, whose Volume-Name attribute places its
value bytes at `[28, 36)`, the walk dereferences 4 bytes past the record
buffer (an undefined read) instead of skipping the attribute. -/
theorem walk_value_read_out_of_bounds :
    walkAttrs 33 c1RecordBuf 32 0 emptyVolumeId = WalkOut.oob := by decide

/-- C2: with the attribute header at the current offset readable, the
three termination conditions — `total_length = 0`, then
`current_offset + total_length ≥ record_size`, then
`type = MFT_RECORD_ATTR_END`, checked in this order by `walkStep` — each
end the walk normally with the accumulated Identity Result, before any
dereference at the next offset (the result is the same for every content
of the rest of the buffer). -/
theorem walk_termination_conditions (buf : List Nat)
    (recSize attrOff fuel t l vo vl : Nat) (id : VolumeId)
    (hh : readAttrHeader buf attrOff = some (t, l, vo, vl))
    (hterm : l = 0 ∨ recSize ≤ attrOff + l ∨ t = MFT_RECORD_ATTR_END) :
    walkAttrs (fuel + 1) buf recSize attrOff id = WalkOut.ok id := by
  simp only [walkAttrs, walkStep_break hh hterm]

/-- Witness for C2: a record whose first attribute has `total_length = 0`
ends the walk at once with the Identity Result unchanged. -/
theorem walk_termination_conditions_check :
    walkAttrs 1 (List.replicate 22 0) 64 0 emptyVolumeId =
      WalkOut.ok emptyVolumeId :=
  walk_termination_conditions (List.replicate 22 0) 64 0 0 0 0 0 0
    emptyVolumeId (by decide) (Or.inl rfl)

/-- C3 counterexample: the claim states that a negative record-size byte
always gives `record_size = 1 << magnitude`.  For the byte `0x80`
(twos-complement `-128`) the C shift `1 << 128` exceeds the width of
`int` and is undefined, so no record size — in particular not `2 ^ 128` —
is computed. -/
theorem mft_record_size_large_negative_cex :
    ¬ mftRecordSize 128 4096 = some (2 ^ 128) := by decide

/-- C3 (amended): if the signed record-size byte is negative with
magnitude below 32 (raw byte `b` with `128 ≤ b ≤ 255`, magnitude
`256 - b`), then `record_size = 2 ^ magnitude` (e.g. byte `-1` gives 2);
if it is non-negative, `record_size = byte * cluster_size` (e.g. byte 4
gives `4 * cluster_size`); both branches are ordinary outcomes, not
errors.  Negative bytes of magnitude 32 or more make the shift undefined. -/
theorem mft_record_size_dual_encoding (b cs : Nat) :
    (128 ≤ b → 256 - b < 32 → mftRecordSize b cs = some (2 ^ (256 - b))) ∧
    (b < 128 → mftRecordSize b cs = some (b * cs)) := by
  constructor
  · intro h1 h2
    unfold mftRecordSize
    rw [if_pos h1, if_pos h2]
  · intro h1
    unfold mftRecordSize
    rw [if_neg (by omega)]

/-- Witness for C3 (amended): byte `-1` (raw 255) gives record size
`2 ^ 1 = 2`, and byte `4` gives `4 * cluster_size`. -/
theorem mft_record_size_dual_encoding_check :
    mftRecordSize 255 1024 = some (2 ^ (256 - 255)) ∧
      mftRecordSize 4 1024 = some (4 * 1024) :=
  ⟨(mft_record_size_dual_encoding 255 1024).1 (by decide) (by decide),
   (mft_record_size_dual_encoding 4 1024).2 (by decide)⟩

set_option maxRecDepth 8000 in
/-- C5: the spec claims a zero `sector_size`, `cluster_size` or
`record_size` is caught by a non-zero validation and yields "no match".
No such validation exists: on the boot sector `ntfsBootC`
(`bytes_per_sector = 0`, record-size byte 4), all three quantities
compute to zero, the zero-sized metadata record request `(0, 0)` is
issued anyway, and — with that request unavailable — the probe returns a
match (`0`) with the uuid set, not the claimed "no match" (`-1`). -/
theorem probe_zero_record_size_matches :
    recordRequest 0 ntfsBootC = some (0, 0) ∧
      volume_id_probe_ntfs fetchC 0 emptyVolumeId =
        some ({ emptyVolumeId with uuid := some 578437695752307201,
                                   usage := some "filesystem",
                                   type := some "ntfs" }, 0) := by
  constructor
  · decide
  · decide

/-- C6: a boot sector whose name field does not carry the expected
signature (the code compares the 4 bytes `"NTFS"` at the start of the
8-byte oem field) makes the probe return no-match (`-1`) with the
Identity Result left exactly as the caller passed it, and the result does
not depend on any request beyond the 512-byte boot-sector view (the
Buffer Source is arbitrary elsewhere). -/
theorem probe_bad_signature_no_match
    (fetch : Nat → Nat → Option (List Nat)) (off : Nat) (id : VolumeId)
    (ns sig : List Nat)
    (hboot : fetch off 512 = some ns)
    (hsig : readBytes ns 3 4 = some sig)
    (hne : sig ≠ [0x4e, 0x54, 0x46, 0x53]) :
    volume_id_probe_ntfs fetch off id = some (id, -1) := by
  simp only [volume_id_probe_ntfs, hboot, hsig]
  rw [if_neg hne]

set_option maxRecDepth 8000 in
/-- Witness for C6: a boot sector of 512 zero bytes is rejected with the
Identity Result untouched. -/
theorem probe_bad_signature_no_match_check :
    volume_id_probe_ntfs (fun _ _ => some (List.replicate 512 0)) 7
      emptyVolumeId = some (emptyVolumeId, -1) :=
  probe_bad_signature_no_match (fun _ _ => some (List.replicate 512 0)) 7
    emptyVolumeId (List.replicate 512 0) [0, 0, 0, 0] rfl (by decide)
    (by decide)

/-- C10: the attribute chain walk terminates on every record buffer and
every content: fuel `record_size + 1` is never exhausted, because each
iteration either breaks or strictly increases the offset while it stays
below `record_size`. -/
theorem walk_fuel_record_size_terminates (buf : List Nat)
    (recSize attrOff : Nat) (id : VolumeId) :
    walkAttrs (recSize + 1) buf recSize attrOff id ≠ WalkOut.gas :=
  walkAttrs_no_gas (recSize + 1) buf recSize attrOff id (by omega)

/-- Witness for C10 at a concrete record buffer. -/
theorem walk_fuel_record_size_terminates_check :
    walkAttrs 9 [] 8 0 emptyVolumeId ≠ WalkOut.gas :=
  walk_fuel_record_size_terminates [] 8 0 emptyVolumeId

/-- C4: after a successful signature check, an unavailable metadata
record fetch or a record whose 4-byte magic tag is not `"FILE"` still
yields a match (`0`) whose Identity Result carries the type `"ntfs"`, the
usage and the uuid from the signature step, with label and version
absent. -/
theorem probe_degrades_to_partial
    (fetch : Nat → Nat → Option (List Nat)) (off : Nat)
    (ns serial : List Nat) (addr recSize : Nat)
    (hboot : fetch off 512 = some ns)
    (hsig : readBytes ns 3 4 = some [0x4e, 0x54, 0x46, 0x53])
    (hser : readBytes ns 72 8 = some serial)
    (hreq : recordRequest off ns = some (addr, recSize))
    (hrec : fetch addr recSize = none ∨
      ∃ buf magic, fetch addr recSize = some buf ∧
        readBytes buf 0 4 = some magic ∧ magic ≠ [0x46, 0x49, 0x4c, 0x45]) :
    volume_id_probe_ntfs fetch off emptyVolumeId =
      some ({ emptyVolumeId with uuid := some (leVal serial),
                                 usage := some "filesystem",
                                 type := some "ntfs" }, 0) := by
  unfold volume_id_probe_ntfs
  rw [hboot]
  dsimp only
  rw [hsig]
  dsimp only
  rw [if_pos rfl, hser]
  dsimp only
  rw [hreq]
  dsimp only
  rcases hrec with h | ⟨buf, magic, hbuf, hmag, hne⟩
  · rw [h]
    exact rfl
  · rw [hbuf]
    dsimp only
    rw [hmag]
    dsimp only
    rw [if_neg hne]
    exact rfl

set_option maxRecDepth 8000 in
/-- Witness for C4 with the boot sector `ntfsBootA` and the metadata
record unavailable. -/
theorem probe_degrades_to_partial_check :
    volume_id_probe_ntfs fetchA 0 emptyVolumeId =
      some ({ emptyVolumeId with
                uuid := some (leVal [1, 2, 3, 4, 5, 6, 7, 8]),
                usage := some "filesystem",
                type := some "ntfs" }, 0) :=
  probe_degrades_to_partial fetchA 0 ntfsBootA [1, 2, 3, 4, 5, 6, 7, 8] 6 2
    (by decide) (by decide) (by decide) (by decide) (Or.inl (by decide))

set_option maxRecDepth 8000 in
/-- C7 counterexample: the claim states that every boot sector carrying
the correct signature makes the probe return a match, regardless of the
content of the rest of the buffer.  The boot sector `ntfsBootB` carries
the correct signature, yet its record-size byte `0x80` drives the probe
into the undefined shift `1 << 128`, so the run is undefined and no match
is returned. -/
theorem probe_sig_match_undefined_run_cex :
    readBytes ntfsBootB 3 4 = some [0x4e, 0x54, 0x46, 0x53] ∧
      volume_id_probe_ntfs fetchB 0 emptyVolumeId = none := by
  constructor
  · decide
  · decide

/-- C7 (amended): for every boot-sector buffer carrying the correct
signature, every run of the probe that is defined (performs no undefined
shift or out-of-bounds read) returns a match (`0`) whose uuid is the
8 volume-serial bytes interpreted as a little-endian 64-bit value,
regardless of the content of the rest of the buffer. -/
theorem probe_defined_run_uuid
    (fetch : Nat → Nat → Option (List Nat)) (off : Nat)
    (ns serial : List Nat) (out : VolumeId × Int)
    (hboot : fetch off 512 = some ns)
    (hsig : readBytes ns 3 4 = some [0x4e, 0x54, 0x46, 0x53])
    (hser : readBytes ns 72 8 = some serial)
    (hrun : volume_id_probe_ntfs fetch off emptyVolumeId = some out) :
    out.2 = 0 ∧ out.1.uuid = some (leVal serial) := by
  unfold volume_id_probe_ntfs at hrun
  rw [hboot] at hrun
  dsimp only at hrun
  rw [hsig] at hrun
  dsimp only at hrun
  rw [if_pos rfl, hser] at hrun
  dsimp only at hrun
  cases hreq : recordRequest off ns with
  | none => rw [hreq] at hrun; exact absurd hrun (by simp)
  | some p =>
    obtain ⟨addr, recSize⟩ := p
    rw [hreq] at hrun
    dsimp only at hrun
    cases hfr : fetch addr recSize with
    | none =>
      rw [hfr] at hrun
      have h := Option.some.inj hrun
      rw [← h]
      exact ⟨rfl, rfl⟩
    | some buf =>
      rw [hfr] at hrun
      dsimp only at hrun
      cases hmag : readBytes buf 0 4 with
      | none => rw [hmag] at hrun; exact absurd hrun (by simp)
      | some magic =>
        rw [hmag] at hrun
        dsimp only at hrun
        by_cases hm : magic = [0x46, 0x49, 0x4c, 0x45]
        · rw [if_pos hm] at hrun
          cases hao : readLE buf 20 2 with
          | none => rw [hao] at hrun; exact absurd hrun (by simp)
          | some attrsOff =>
            rw [hao] at hrun
            dsimp only at hrun
            cases hw : walkAttrs (recSize + 1) buf recSize attrsOff
                { emptyVolumeId with uuid := some (leVal serial) } with
            | ok id2 =>
              rw [hw] at hrun
              have h := Option.some.inj hrun
              rw [← h]
              refine ⟨rfl, ?_⟩
              have hu := walkAttrs_ok_uuid (recSize + 1) buf recSize attrsOff
                { emptyVolumeId with uuid := some (leVal serial) } id2 hw
              exact hu
            | oob => rw [hw] at hrun; exact absurd hrun (by simp)
            | gas => rw [hw] at hrun; exact absurd hrun (by simp)
        · rw [if_neg hm] at hrun
          have h := Option.some.inj hrun
          rw [← h]
          exact ⟨rfl, rfl⟩

set_option maxRecDepth 8000 in
/-- Witness for C7 (amended): the defined run on `ntfsBootA` with the
record fetch unavailable returns a match with the serial `1..8` as
little-endian uuid. -/
theorem probe_defined_run_uuid_check :
    (({ emptyVolumeId with
          uuid := some (leVal [1, 2, 3, 4, 5, 6, 7, 8]),
          usage := some "filesystem",
          type := some "ntfs" }, (0 : Int)) : VolumeId × Int).2 = 0 ∧
      (({ emptyVolumeId with
            uuid := some (leVal [1, 2, 3, 4, 5, 6, 7, 8]),
            usage := some "filesystem",
            type := some "ntfs" }, (0 : Int)) : VolumeId × Int).1.uuid =
        some (leVal [1, 2, 3, 4, 5, 6, 7, 8]) :=
  probe_defined_run_uuid fetchA 0 ntfsBootA [1, 2, 3, 4, 5, 6, 7, 8]
    ({ emptyVolumeId with
         uuid := some (leVal [1, 2, 3, 4, 5, 6, 7, 8]),
         usage := some "filesystem",
         type := some "ntfs" }, (0 : Int))
    (by decide) (by decide) (by decide) (by decide)

/-- C8: a Volume-Name attribute (readable header, walk not terminating
here) whose `value_length` exceeds `VOLUME_ID_LABEL_SIZE` and whose first
`VOLUME_ID_LABEL_SIZE` value bytes lie inside the record buffer is
processed as: the label is truncated to exactly `VOLUME_ID_LABEL_SIZE`
bytes, the raw bytes go into `label_raw`, and the same bytes decoded as
little-endian 16-bit code units go into `label` — then the walk continues
at the next attribute.  (The in-bounds hypothesis on the value bytes is
needed because the code performs no source-bounds validation; see C1.) -/
theorem walk_label_truncation (buf : List Nat)
    (recSize attrOff fuel l vo vl : Nat) (bytes : List Nat) (id : VolumeId)
    (hh : readAttrHeader buf attrOff =
      some (MFT_RECORD_ATTR_VOLUME_NAME, l, vo, vl))
    (hl0 : l ≠ 0) (hlb : attrOff + l < recSize)
    (hvl : VOLUME_ID_LABEL_SIZE < vl)
    (hbytes : readBytes buf (attrOff + vo) VOLUME_ID_LABEL_SIZE =
      some bytes) :
    bytes.length = VOLUME_ID_LABEL_SIZE ∧
      walkAttrs (fuel + 1) buf recSize attrOff id =
        walkAttrs fuel buf recSize (attrOff + l)
          { id with label_raw := some bytes,
                    label := some (decodeUnicode16LE bytes) } := by
  refine ⟨readBytes_length _ _ _ _ hbytes, ?_⟩
  have hstep : walkStep buf recSize attrOff id =
      Sum.inr (attrOff + l,
        { id with label_raw := some bytes,
                  label := some (decodeUnicode16LE bytes) }) := by
    unfold walkStep
    simp only [hh]
    rw [if_neg hl0, if_neg (by omega)]
    rw [if_neg (by decide : ¬ MFT_RECORD_ATTR_VOLUME_NAME = MFT_RECORD_ATTR_END)]
    unfold processAttr
    rw [if_neg
      (by decide : ¬ MFT_RECORD_ATTR_VOLUME_NAME = MFT_RECORD_ATTR_VOLUME_INFO)]
    rw [if_pos rfl]
    rw [min_eq_right (le_of_lt hvl)]
    rw [hbytes]
    rfl
  simp only [walkAttrs, hstep]

set_option maxRecDepth 8000 in
/-- Witness for C8: on `c8RecordBuf` the Volume-Name value of declared
length 100 is truncated to the 64 bytes `65, ..., 65`, stored raw and
decoded as code units `16705, ...`. -/
theorem walk_label_truncation_check :
    (List.replicate 64 65).length = VOLUME_ID_LABEL_SIZE ∧
      walkAttrs 2 c8RecordBuf 120 0 emptyVolumeId =
        walkAttrs 1 c8RecordBuf 120 (0 + 96)
          { emptyVolumeId with
              label_raw := some (List.replicate 64 65),
              label := some (decodeUnicode16LE (List.replicate 64 65)) } :=
  walk_label_truncation c8RecordBuf 120 0 1 96 24 100 (List.replicate 64 65)
    emptyVolumeId (by decide) (by decide) (by decide) (by decide) (by decide)

/-- C9: the probe is a deterministic, pure computation over the Buffer
Source answers: two Buffer Sources that return the same result for the
boot-sector request and for the metadata-record request determined by the
returned boot sector (the only two requests the probe makes) produce
identical Identity Results and identical return values. -/
theorem probe_deterministic
    (f1 f2 : Nat → Nat → Option (List Nat)) (off : Nat) (id : VolumeId)
    (hboot : f1 off 512 = f2 off 512)
    (hrec : ∀ ns addr recSize, f1 off 512 = some ns →
      recordRequest off ns = some (addr, recSize) →
      f1 addr recSize = f2 addr recSize) :
    volume_id_probe_ntfs f1 off id = volume_id_probe_ntfs f2 off id := by
  unfold volume_id_probe_ntfs
  rw [← hboot]
  cases hb : f1 off 512 with
  | none => rfl
  | some ns =>
    dsimp only
    cases hs : readBytes ns 3 4 with
    | none => rfl
    | some sig =>
      dsimp only
      by_cases hsg : sig = [0x4e, 0x54, 0x46, 0x53]
      · rw [if_pos hsg, if_pos hsg]
        cases hser : readBytes ns 72 8 with
        | none => rfl
        | some serial =>
          dsimp only
          cases hreq : recordRequest off ns with
          | none => rfl
          | some p =>
            obtain ⟨addr, recSize⟩ := p
            dsimp only
            rw [hrec ns addr recSize hb hreq]
      · rw [if_neg hsg, if_neg hsg]

set_option maxRecDepth 8000 in
/-- Witness for C9: `fetchA` and `fetchA2` agree on the two requests the
probe makes but differ elsewhere, and the probe results coincide. -/
theorem probe_deterministic_check :
    volume_id_probe_ntfs fetchA 0 emptyVolumeId =
      volume_id_probe_ntfs fetchA2 0 emptyVolumeId :=
  probe_deterministic fetchA fetchA2 0 emptyVolumeId (by decide)
    (by
      intro ns addr recSize h1 h2
      have h0 : fetchA 0 512 = some ntfsBootA := by decide
      rw [h0] at h1
      have h4 : ns = ntfsBootA := (Option.some.inj h1).symm
      subst h4
      have h5 : recordRequest 0 ntfsBootA = some (6, 2) := by decide
      rw [h5] at h2
      have h8 := Option.some.inj h2
      injection h8 with h6 h7
      subst h6
      subst h7
      decide)

end NtfsProbe
